import Mathlib

/-!
# pdf-ocr-to-filename: rule matching and date normalisation

A shallow embedding of `ExtractDate` and `ApplyRules` from
`pdf-ocr-to-filename.go`.

* Go strings are Lean `String`s.  The date parser of package `time` reads bytes;
  here it reads characters, which gives the same result: it accepts ASCII
  letters, digits, spaces and a comma only, and any other character fails the
  parse at the same place either way.
* The Go `regexp` package is a parameter (`RegexpLib`): the results below hold
  for every regular-expression engine.  `miniRegexp` is a small backtracking
  engine for a fragment of the RE2 syntax, used to evaluate the concrete
  scenarios.
* `time.Parse` and `Time.Format` are modelled for the two layouts the program
  uses, `"January 2, 2006"` and `"20060102"`.
* A Go call either returns its `(string, error)` pair or panics (`Outcome`).
-/

namespace PdfOcr

/-! ## Data model -/

/-- Rule represents a single rule with its matching criteria and date extraction regex. -/
structure Rule where
  VendorMatchRegex : String
  AdditionalMatchRegex : String
  DateExtractionRegex : String
  deriving DecidableEq, Repr

/-- The three error values the two functions can return. -/
inductive GoError where
  /-- The value of `fmt.Errorf("date not found")`. -/
  | dateNotFound
  /-- The `*time.ParseError` returned by `time.Parse`. -/
  | parseError
  /-- The value of `fmt.Errorf("no matching rule found")`. -/
  | noMatchingRule
  deriving DecidableEq, Repr

/-- The result of calling a Go function of type `(string, error)`: it returns
the pair (`err = none` is a nil error), or it panics. -/
inductive Outcome where
  | ret (value : String) (err : Option GoError)
  | panic
  deriving DecidableEq, Repr

/-! ## The `regexp` package, as a parameter -/

/-- The part of Go's `regexp` package the program uses. -/
structure RegexpLib where
  /-- The type of compiled expressions, `*regexp.Regexp`. -/
  Regexp : Type
  /-- The function `regexp.Compile`; `none` is a syntax error. -/
  Compile : String → Option Regexp
  /-- The method `(*Regexp).MatchString`. -/
  ReMatchString : Regexp → String → Bool
  /-- The method `(*Regexp).FindStringSubmatch`: the text of the leftmost match
  followed by the text of each capture group; `[]` (nil) when there is no match. -/
  FindStringSubmatch : Regexp → String → List String

/-- The function `regexp.MatchString(pattern, s)`: compiles the pattern and
returns `(false, err)` when that fails; the boolean is all the program reads. -/
def RegexpLib.MatchString (L : RegexpLib) (pattern s : String) : Bool :=
  match L.Compile pattern with
  | none => false
  | some re => L.ReMatchString re s

/-! ## `time.Parse` with layout `"January 2, 2006"` -/

/-- A parsed `time.Time` at midnight UTC, as its civil date. -/
structure Date where
  year : Nat
  month : Nat
  day : Nat
  deriving DecidableEq, Repr

/-- The table `longMonthNames` of package `time`. -/
def longMonthNames : List String :=
  ["January", "February", "March", "April", "May", "June", "July", "August",
   "September", "October", "November", "December"]

/-- The function `isDigit(s, i)` of package `time`. -/
def isDigit (s : List Char) (i : Nat) : Bool :=
  match s.get? i with
  | none => false
  | some c => decide ('0' ≤ c) && decide (c ≤ '9')

/-- Lower-cases a letter as `c |= 'a' - 'A'` does. -/
def orLower (c : Char) : Char := Char.ofNat (c.toNat ||| 0x20)

/-- The function `match(s1, s2)` of package `time`: equality ignoring ASCII
case, for strings of the same length. -/
def matchFold : List Char → List Char → Bool
  | c1 :: s1, c2 :: s2 =>
    if c1 ≠ c2 then
      if orLower c1 ≠ orLower c2 || decide (orLower c1 < 'a') || decide ('z' < orLower c1) then false
      else matchFold s1 s2
    else matchFold s1 s2
  | _, _ => true

/-- The loop of `lookup(tab, val)` of package `time`, from index `i` on. -/
def lookupFrom : List String → Nat → List Char → Option (Nat × List Char)
  | [], _, _ => none
  | v :: tab, i, val =>
    if v.length ≤ val.length && matchFold (val.take v.length) v.data then
      some (i, val.drop v.length)
    else lookupFrom tab (i + 1) val

/-- The function `lookup(tab, val)` of package `time`: the index of the first
table entry that is a prefix of `val` ignoring case, and the rest of `val`. -/
def lookup (tab : List String) (val : List Char) : Option (Nat × List Char) :=
  lookupFrom tab 0 val

/-- The function `cutspace(s)` of package `time`. -/
def cutspace : List Char → List Char
  | c :: s => if c = ' ' then cutspace s else c :: s
  | [] => []

/-- The loop of `skip(value, prefix)`; `n` bounds the iterations, each of
which shortens the prefix. -/
def skipLoop : Nat → List Char → List Char → Option (List Char)
  | _, value, [] => some value
  | 0, _, _ :: _ => none
  | n + 1, value, p :: ps =>
    if p = ' ' then
      match value with
      | [] => skipLoop n (cutspace []) (cutspace (p :: ps))
      | v :: vs =>
        if v ≠ ' ' then none
        else skipLoop n (cutspace (v :: vs)) (cutspace (p :: ps))
    else
      match value with
      | [] => none
      | v :: vs => if v ≠ p then none else skipLoop n vs ps

/-- The function `skip(value, prefix)` of package `time`: removes the prefix
from the value, treating runs of spaces as equivalent. -/
def skip (value pre : List Char) : Option (List Char) :=
  skipLoop pre.length value pre

/-- The value of a digit character, `c - '0'`. -/
def digitVal (c : Char) : Nat := c.toNat - '0'.toNat

/-- The function `getnum(s, fixed)` of package `time`: a one- or two-digit
number at the start of `s`. -/
def getnum (s : List Char) (fixed : Bool) : Option (Nat × List Char) :=
  if !isDigit s 0 then none
  else if !isDigit s 1 then
    if fixed then none
    else some (digitVal (s.getD 0 '0'), s.drop 1)
  else some (digitVal (s.getD 0 '0') * 10 + digitVal (s.getD 1 '0'), s.drop 2)

/-- The function `leadingInt(s)` of package `time`, on an accumulator: the
leading digits of `s` as a number, and the rest.  The overflow check of the
original is left out: the parser calls it on four characters. -/
def leadingInt : Nat → List Char → Nat × List Char
  | x, c :: s =>
    if decide ('0' ≤ c) && decide (c ≤ '9') then leadingInt (x * 10 + digitVal c) s
    else (x, c :: s)
  | x, [] => (x, [])

/-- The function `atoi(s)` of package `time`: an optionally signed decimal
number that fills the whole of `s`. -/
def atoi (s : List Char) : Option Int :=
  let neg := s.head? = some '-'
  let s1 := if s.head? = some '-' ∨ s.head? = some '+' then s.drop 1 else s
  match leadingInt 0 s1 with
  | (q, []) => some (if neg then -(q : Int) else (q : Int))
  | (_, _ :: _) => none

/-- The function `isLeap(year)` of package `time`. -/
def isLeap (year : Nat) : Bool :=
  year % 4 = 0 && (year % 100 ≠ 0 || year % 400 = 0)

/-- The function `daysIn(m, year)` of package `time`. -/
def daysIn (m year : Nat) : Nat :=
  if m = 2 then (if isLeap year then 29 else 28)
  else 30 + ((m + m / 8) % 2)

/-- The call `time.Parse("January 2, 2006", value)`.  The layout splits into
the chunks `stdLongMonth`, `" "`, `stdDay`, `", "`, `stdLongYear`; the value
must be used up, and the day must exist in the month. -/
def timeParse (value : String) : Option Date :=
  match lookup longMonthNames value.data with
  | none => none
  | some (i, v1) =>
    match skip v1 " ".data with
    | none => none
    | some v2 =>
      match getnum v2 false with
      | none => none
      | some (day, v3) =>
        match skip v3 ", ".data with
        | none => none
        | some v4 =>
          if v4.length < 4 || !isDigit v4 0 then none
          else
            match atoi (v4.take 4) with
            | none => none
            | some year =>
              if v4.drop 4 ≠ [] then none
              else if day < 1 || daysIn (i + 1) year.toNat < day then none
              else some ⟨year.toNat, i + 1, day⟩

/-! ## `Time.Format` with layout `"20060102"` -/

/-- The decimal digit `'0' + u`. -/
def utod (u : Nat) : Char := Char.ofNat ('0'.toNat + u)

/-- The function `appendInt(b, x, width)` of package `time` for `x ≥ 0`: the
decimal digits of `x`, zero-padded to the width. -/
def appendInt (x width : Nat) : List Char :=
  if width = 2 ∧ x < 100 then [utod (x / 10), utod (x % 10)]
  else if width = 4 ∧ x < 10000 then
    [utod (x / 1000), utod (x / 100 % 10), utod (x / 10 % 10), utod (x % 10)]
  else
    let ds := Nat.toDigits 10 x
    List.replicate (width - ds.length) '0' ++ ds

/-- The call `t.Format("20060102")`: `stdLongYear`, `stdZeroMonth`, `stdZeroDay`. -/
def timeFormat (t : Date) : String :=
  String.mk (appendInt t.year 4 ++ appendInt t.month 2 ++ appendInt t.day 2)

/-! ## A reference engine for a fragment of the RE2 syntax

Literals, `.`, classes `[...]`, the escapes `\d \w \s \D \W \S` and escaped
punctuation, grouping, alternation and the greedy repetitions `* + ? {m}
{m,} {m,n}`.  A pattern outside the fragment is reported as a syntax error.
Matching is leftmost-first, by backtracking. -/

/-- The syntax tree of a pattern. -/
inductive Re where
  | empty
  | lit (c : Char)
  | any
  | cls (neg : Bool) (ranges : List (Char × Char))
  | seq (a b : Re)
  | alt (a b : Re)
  | star (a : Re)
  | group (i : Nat) (a : Re)
  deriving DecidableEq, Repr

/-- The number of nodes of a syntax tree. -/
def Re.size : Re → Nat
  | .seq a b => a.size + b.size + 1
  | .alt a b => a.size + b.size + 1
  | .star a => a.size + 1
  | .group _ a => a.size + 1
  | _ => 1

/-- The ranges of a Perl character class escape and whether it is negated. -/
def perlClass (c : Char) : Option (Bool × List (Char × Char)) :=
  if c = 'd' then some (false, [('0', '9')])
  else if c = 'D' then some (true, [('0', '9')])
  else if c = 'w' then some (false, [('0', '9'), ('A', 'Z'), ('_', '_'), ('a', 'z')])
  else if c = 'W' then some (true, [('0', '9'), ('A', 'Z'), ('_', '_'), ('a', 'z')])
  else if c = 's' then some (false, [('\t', '\n'), ('\x0c', '\r'), (' ', ' ')])
  else if c = 'S' then some (true, [('\t', '\n'), ('\x0c', '\r'), (' ', ' ')])
  else none

/-- Punctuation that a backslash turns into a literal. -/
def isPunct (c : Char) : Bool :=
  c ∈ ['\\', '.', '+', '*', '?', '(', ')', '|', '[', ']', '{', '}', '^', '$', '-']

/-- The items of a bracket class up to the closing `]`. -/
def parseClassItems : List Char → List (Char × Char) → Option (List (Char × Char) × List Char)
  | [], _ => none
  | ']' :: s, acc => if acc.isEmpty then none else some (acc.reverse, s)
  | '\\' :: c :: s, acc =>
    match perlClass c with
    | some (false, rs) => parseClassItems s (rs.reverse ++ acc)
    | some (true, _) => none
    | none => if isPunct c then parseClassItems s ((c, c) :: acc) else none
  | '[' :: _, _ => none
  | lo :: '-' :: ']' :: s, acc => some (((('-', '-') :: (lo, lo) :: acc).reverse), s)
  | _ :: '-' :: '\\' :: _, _ => none
  | lo :: '-' :: hi :: s, acc => if hi < lo then none else parseClassItems s ((lo, hi) :: acc)
  | c :: s, acc => parseClassItems s ((c, c) :: acc)

/-- A decimal number at the start of the input. -/
def parseNat : List Char → Option (Nat × List Char)
  | c :: s =>
    if c.isDigit then
      let r := leadingInt 0 (c :: s)
      some r
    else none
  | [] => none

/-- The pattern `a` repeated `n` times in sequence. -/
def Re.times (a : Re) : Nat → Re
  | 0 => .empty
  | n + 1 => .seq a (a.times n)

/-- Up to `n` further greedy copies of `a`. -/
def Re.upTo (a : Re) : Nat → Re
  | 0 => .empty
  | n + 1 => .alt (.seq a (a.upTo n)) .empty

/-- An optional repetition operator after the atom `a`; `none` is a syntax error. -/
def parseQuant (a : Re) : List Char → Option (Re × List Char)
  | '*' :: s => some (.star a, s)
  | '+' :: s => some (.seq a (.star a), s)
  | '?' :: s => some (.alt a .empty, s)
  | '{' :: s =>
    match parseNat s with
    | none => none
    | some (m, '}' :: s1) => some (a.times m, s1)
    | some (m, ',' :: '}' :: s1) => some (.seq (a.times m) (.star a), s1)
    | some (m, ',' :: s1) =>
      match parseNat s1 with
      | some (n, '}' :: s2) => if n < m then none else some (.seq (a.times m) (a.upTo (n - m)), s2)
      | _ => none
    | some _ => none
  | s => some (a, s)

mutual
/-- An alternation `seq | seq | ...`; the `Nat` after the input is the index of the next group. -/
def parseAlt : Nat → List Char → Nat → Option (Re × List Char × Nat)
  | 0, _, _ => none
  | f + 1, s, g =>
    match parseSeq f s g with
    | none => none
    | some (a, '|' :: s1, g1) =>
      match parseAlt f s1 g1 with
      | some (b, s2, g2) => some (.alt a b, s2, g2)
      | none => none
    | some (a, s1, g1) => some (a, s1, g1)
/-- A sequence of repeated atoms, up to `|`, `)` or the end. -/
def parseSeq : Nat → List Char → Nat → Option (Re × List Char × Nat)
  | 0, _, _ => none
  | _ + 1, [], g => some (.empty, [], g)
  | _ + 1, '|' :: s, g => some (.empty, '|' :: s, g)
  | _ + 1, ')' :: s, g => some (.empty, ')' :: s, g)
  | f + 1, c :: s, g =>
    match parseAtom f (c :: s) g with
    | none => none
    | some (a, s1, g1) =>
      match parseQuant a s1 with
      | none => none
      | some (q, s2) =>
        match parseSeq f s2 g1 with
        | some (b, s3, g2) => some (.seq q b, s3, g2)
        | none => none
/-- One atom: a group, a class, an escape, `.` or a literal. -/
def parseAtom : Nat → List Char → Nat → Option (Re × List Char × Nat)
  | 0, _, _ => none
  | _ + 1, [], _ => none
  | f + 1, '(' :: s, g =>
    match parseAlt f s (g + 1) with
    | some (a, ')' :: s1, g1) => some (.group g a, s1, g1)
    | _ => none
  | _ + 1, '[' :: '^' :: s, g =>
    match parseClassItems s [] with
    | some (rs, s1) => some (.cls true rs, s1, g)
    | none => none
  | _ + 1, '[' :: s, g =>
    match parseClassItems s [] with
    | some (rs, s1) => some (.cls false rs, s1, g)
    | none => none
  | _ + 1, '\\' :: c :: s, g =>
    match perlClass c with
    | some (neg, rs) => some (.cls neg rs, s, g)
    | none => if isPunct c then some (.lit c, s, g) else none
  | _ + 1, '.' :: s, g => some (.any, s, g)
  | _ + 1, c :: s, g =>
    if c ∈ ['\\', '*', '+', '?', '{', '}', ')', '|', '^', '$'] then none
    else some (.lit c, s, g)
end

/-- A compiled pattern: its syntax tree and the number of capture groups. -/
structure MiniRegexp where
  re : Re
  numSubexp : Nat
  deriving DecidableEq, Repr

/-- Compiles a pattern of the fragment. -/
def miniCompile (pattern : String) : Option MiniRegexp :=
  match parseAlt (2 * pattern.length + 2) pattern.data 1 with
  | some (a, [], g) => some ⟨a, g - 1⟩
  | _ => none

/-- The captures recorded so far, the latest first. -/
abbrev Caps := List (Nat × List Char)

/-- Whether a character lies in one of the ranges. -/
def inRanges (c : Char) (rs : List (Char × Char)) : Bool :=
  rs.any (fun r => decide (r.1 ≤ c) && decide (c ≤ r.2))

/-- Backtracking matcher in continuation-passing style: matches `re` at the
start of the input and hands the rest of the input to `k`.  The first argument
bounds the depth of the search. -/
def matchRe : Nat → Re → List Char → Caps →
    (List Char → Caps → Option (List Char × Caps)) → Option (List Char × Caps)
  | 0, _, _, _, _ => none
  | _ + 1, .empty, s, caps, k => k s caps
  | _ + 1, .lit c, s, caps, k =>
    match s with
    | x :: xs => if x = c then k xs caps else none
    | [] => none
  | _ + 1, .any, s, caps, k =>
    match s with
    | x :: xs => if x = '\n' then none else k xs caps
    | [] => none
  | _ + 1, .cls neg rs, s, caps, k =>
    match s with
    | x :: xs => if inRanges x rs != neg then k xs caps else none
    | [] => none
  | f + 1, .seq a b, s, caps, k =>
    matchRe f a s caps (fun s1 c1 => matchRe f b s1 c1 k)
  | f + 1, .alt a b, s, caps, k =>
    match matchRe f a s caps k with
    | some r => some r
    | none => matchRe f b s caps k
  | f + 1, .star a, s, caps, k =>
    match matchRe f a s caps
        (fun s1 c1 => if s1.length < s.length then matchRe f (.star a) s1 c1 k else none) with
    | some r => some r
    | none => k s caps
  | f + 1, .group i a, s, caps, k =>
    matchRe f a s caps (fun s1 c1 => k s1 ((i, s.take (s.length - s1.length)) :: c1))

/-- The text of capture group `i`, empty when the group took no part. -/
def capText (caps : Caps) (i : Nat) : String :=
  match caps.find? (fun p => p.1 == i) with
  | some p => String.mk p.2
  | none => ""

/-- The leftmost match at or after the start of `s`: the matched text and the groups. -/
def findFrom (fuel : Nat) (r : MiniRegexp) : List Char → List String
  | [] =>
    match matchRe fuel r.re [] [] (fun rest caps => some (rest, caps)) with
    | some (_, caps) => "" :: (List.range r.numSubexp).map (fun i => capText caps (i + 1))
    | none => []
  | c :: s =>
    match matchRe fuel r.re (c :: s) [] (fun rest caps => some (rest, caps)) with
    | some (rest, caps) =>
      String.mk ((c :: s).take ((c :: s).length - rest.length)) ::
        (List.range r.numSubexp).map (fun i => capText caps (i + 1))
    | none => findFrom fuel r s

/-- The search depth that suffices for a pattern and a text. -/
def searchFuel (r : MiniRegexp) (text : String) : Nat :=
  2 * (r.re.size + 1) * (text.length + 1)

/-- The engine as an instance of the `regexp` interface. -/
def miniRegexp : RegexpLib where
  Regexp := MiniRegexp
  Compile := miniCompile
  ReMatchString := fun r text => !(findFrom (searchFuel r text) r text.data).isEmpty
  FindStringSubmatch := fun r text => findFrom (searchFuel r text) r text.data

/-! ## The program -/

/-- ExtractDate extracts and formats the date from a string using the given regex. -/
def ExtractDate (L : RegexpLib) (text regex : String) : Outcome :=
  match L.Compile regex with
  | none => .panic
  | some re =>
    let submatches := L.FindStringSubmatch re text
    if submatches.length < 2 then .ret "" (some .dateNotFound)
    else
      match timeParse (submatches.getD 1 "") with
      | none => .ret "" (some .parseError)
      | some parsedDate => .ret (timeFormat parsedDate) none

/-- ApplyRules applies the rules to the OCR output text and suggests a filename. -/
def ApplyRules (L : RegexpLib) (ocrText : String) : List Rule → Outcome
  | [] => .ret "" (some .noMatchingRule)
  | rule :: rules =>
    if L.MatchString rule.VendorMatchRegex ocrText then
      if L.MatchString rule.AdditionalMatchRegex ocrText then
        match ExtractDate L ocrText rule.DateExtractionRegex with
        | .panic => .panic
        | .ret _ (some _) => ApplyRules L ocrText rules
        | .ret date none => .ret (date ++ " - " ++ "Google Cloud" ++ ".pdf") none
      else ApplyRules L ocrText rules
    else ApplyRules L ocrText rules

/-! ## Concrete scenarios -/

/-- The text of Scenario A. -/
def textA : String := "Google Cloud Invoice\nDate: March 5, 2023"

/-- The rule of Scenario A. -/
def ruleA : Rule :=
  ⟨"Google Cloud", "Invoice", "Date: ([A-Za-z]+ \\d{1,2}, \\d{4})"⟩

/-- A rule for texts that write the day before the month, which `time.Parse` rejects. -/
def ruleDayFirst : Rule :=
  ⟨"Google Cloud", "Invoice", "Date: (\\d{1,2} [A-Za-z]+ \\d{4})"⟩

/-- A rule whose date pattern is not valid syntax (missing closing parenthesis). -/
def ruleBadDate : Rule := ⟨"Google Cloud", "Invoice", "Date: ("⟩

/-- A rule whose vendor pattern is not valid syntax. -/
def ruleBadVendor : Rule := ⟨"Google (Cloud", "Invoice", "Date: ("⟩

/-- A rule whose additional pattern is not valid syntax. -/
def ruleBadAdditional : Rule := ⟨"Google Cloud", "[Invoice", "Date: ("⟩

/-- The text of Scenario C: the day comes first, then a well-formed date. -/
def textC : String := "Google Cloud Invoice\nDate: 5 March 2023\nDate: March 6, 2023"

/-- The text of Scenario B: Scenario A without the word "Invoice". -/
def textB : String := "Google Cloud\nDate: March 5, 2023"

/-! ## Basic facts about `ApplyRules` -/

theorem sprintf_eq (d : String) :
    d ++ " - " ++ "Google Cloud" ++ ".pdf" = d ++ " - Google Cloud.pdf" := by
  rw [String.append_assoc, String.append_assoc]
  rfl

theorem ApplyRules_vendor_no_match (L : RegexpLib) (text : String) (r : Rule) (rest : List Rule)
    (h : L.MatchString r.VendorMatchRegex text = false) :
    ApplyRules L text (r :: rest) = ApplyRules L text rest := by
  simp [ApplyRules, h]

theorem ApplyRules_additional_no_match (L : RegexpLib) (text : String) (r : Rule)
    (rest : List Rule) (h : L.MatchString r.AdditionalMatchRegex text = false) :
    ApplyRules L text (r :: rest) = ApplyRules L text rest := by
  simp [ApplyRules, h]

theorem ApplyRules_date_error (L : RegexpLib) (text : String) (r : Rule) (rest : List Rule)
    (s : String) (e : GoError)
    (h : ExtractDate L text r.DateExtractionRegex = .ret s (some e)) :
    ApplyRules L text (r :: rest) = ApplyRules L text rest := by
  simp [ApplyRules, h]

theorem ApplyRules_date_ok (L : RegexpLib) (text : String) (r : Rule) (rest : List Rule)
    (d : String)
    (hv : L.MatchString r.VendorMatchRegex text = true)
    (ha : L.MatchString r.AdditionalMatchRegex text = true)
    (h : ExtractDate L text r.DateExtractionRegex = .ret d none) :
    ApplyRules L text (r :: rest) = .ret (d ++ " - Google Cloud.pdf") none := by
  simp [ApplyRules, hv, ha, h, sprintf_eq]

theorem ApplyRules_date_panic (L : RegexpLib) (text : String) (r : Rule) (rest : List Rule)
    (hv : L.MatchString r.VendorMatchRegex text = true)
    (ha : L.MatchString r.AdditionalMatchRegex text = true)
    (h : L.Compile r.DateExtractionRegex = none) :
    ApplyRules L text (r :: rest) = .panic := by
  simp [ApplyRules, hv, ha, ExtractDate, h]

theorem MatchString_of_invalid (L : RegexpLib) (pattern text : String)
    (h : L.Compile pattern = none) : L.MatchString pattern text = false := by
  simp [RegexpLib.MatchString, h]

theorem ExtractDate_ne_panic (L : RegexpLib) (text regex : String)
    (h : (L.Compile regex).isSome = true) : ExtractDate L text regex ≠ .panic := by
  obtain ⟨re, hre⟩ := Option.isSome_iff_exists.mp h
  unfold ExtractDate
  rw [hre]
  dsimp only
  split
  · simp
  · split <;> simp

/-- A failed extraction returns the empty string. -/
theorem ExtractDate_error_value (L : RegexpLib) (text regex s : String) (e : GoError)
    (h : ExtractDate L text regex = .ret s (some e)) : s = "" := by
  unfold ExtractDate at h
  split at h
  · simp at h
  · dsimp only at h
    split at h
    · simp at h; exact h.1.symm
    · split at h
      · simp at h; exact h.1.symm
      · simp at h

/-- With every date pattern that is reached valid and no rule succeeding, the
rule list is exhausted. -/
theorem ApplyRules_exhausted (L : RegexpLib) (text : String) (rules : List Rule)
    (hvalid : ∀ q ∈ rules, L.MatchString q.VendorMatchRegex text = true →
      L.MatchString q.AdditionalMatchRegex text = true →
      (L.Compile q.DateExtractionRegex).isSome = true)
    (hnone : ∀ q ∈ rules, ¬ (L.MatchString q.VendorMatchRegex text = true ∧
      L.MatchString q.AdditionalMatchRegex text = true ∧
      ∃ d, ExtractDate L text q.DateExtractionRegex = .ret d none)) :
    ApplyRules L text rules = .ret "" (some .noMatchingRule) := by
  induction rules with
  | nil => rfl
  | cons q rest ih =>
    have ihr := ih (fun x hx => hvalid x (List.mem_cons_of_mem _ hx))
      (fun x hx => hnone x (List.mem_cons_of_mem _ hx))
    cases hv : L.MatchString q.VendorMatchRegex text with
    | false => rw [ApplyRules_vendor_no_match L text q rest hv, ihr]
    | true =>
      cases ha : L.MatchString q.AdditionalMatchRegex text with
      | false => rw [ApplyRules_additional_no_match L text q rest ha, ihr]
      | true =>
        have hc := hvalid q (List.mem_cons_self _ _) hv ha
        cases hd : ExtractDate L text q.DateExtractionRegex with
        | panic => exact absurd hd (ExtractDate_ne_panic L text _ hc)
        | ret s err =>
          cases err with
          | none => exact absurd ⟨hv, ha, s, hd⟩ (hnone q (List.mem_cons_self _ _))
          | some e => rw [ApplyRules_date_error L text q rest s e hd, ihr]

/-- The head rule decides alone: it panics, or it yields a filename, or it is
skipped; in each case whatever the rules after it are. -/
theorem ApplyRules_head_cases (L : RegexpLib) (text : String) (q : Rule) :
    (∀ rest, ApplyRules L text (q :: rest) = .panic) ∨
    (∃ f, ∀ rest, ApplyRules L text (q :: rest) = .ret f none) ∨
    (∀ rest, ApplyRules L text (q :: rest) = ApplyRules L text rest) := by
  cases hv : L.MatchString q.VendorMatchRegex text with
  | false => exact Or.inr (Or.inr fun rest => ApplyRules_vendor_no_match L text q rest hv)
  | true =>
    cases ha : L.MatchString q.AdditionalMatchRegex text with
    | false => exact Or.inr (Or.inr fun rest => ApplyRules_additional_no_match L text q rest ha)
    | true =>
      cases hd : ExtractDate L text q.DateExtractionRegex with
      | panic => exact Or.inl fun rest => by simp [ApplyRules, hv, ha, hd]
      | ret s err =>
        cases err with
        | none => exact Or.inr (Or.inl ⟨_, fun rest => ApplyRules_date_ok L text q rest s hv ha hd⟩)
        | some e => exact Or.inr (Or.inr fun rest => ApplyRules_date_error L text q rest s e hd)

/-- The only error `ApplyRules` returns is the no-match error, with the empty
filename: the error of a failed extraction is never passed on. -/
theorem ApplyRules_error_inv (L : RegexpLib) (text : String) (rules : List Rule) (s : String)
    (e : GoError) (h : ApplyRules L text rules = .ret s (some e)) :
    s = "" ∧ e = .noMatchingRule := by
  induction rules with
  | nil =>
    simp only [ApplyRules, Outcome.ret.injEq, Option.some.injEq] at h
    exact ⟨h.1.symm, h.2.symm⟩
  | cons q rest ih =>
    rcases ApplyRules_head_cases L text q with hp | ⟨f0, hf⟩ | hs
    · rw [hp rest] at h
      simp at h
    · rw [hf rest] at h
      simp at h
    · rw [hs rest] at h
      exact ih h

/-! ## The claims about `ApplyRules` -/

/-- C1 (first match wins): when every date pattern of the list compiles and
`i` is the smallest index of a rule whose vendor and additional patterns match
the text and whose date extraction succeeds with `d`, `ApplyRules` returns
`d ++ " - Google Cloud.pdf"` with a nil error, whatever the later rules are. -/
theorem ApplyRules_first_match_wins (L : RegexpLib) (text : String) (rules : List Rule)
    (i : Nat) (r : Rule) (d : String)
    (hcompile : ∀ q ∈ rules, (L.Compile q.DateExtractionRegex).isSome = true)
    (hi : rules[i]? = some r)
    (hv : L.MatchString r.VendorMatchRegex text = true)
    (ha : L.MatchString r.AdditionalMatchRegex text = true)
    (hd : ExtractDate L text r.DateExtractionRegex = .ret d none)
    (hmin : ∀ j, j < i → ∀ q, rules[j]? = some q →
      ¬ (L.MatchString q.VendorMatchRegex text = true ∧
         L.MatchString q.AdditionalMatchRegex text = true ∧
         ∃ d0, ExtractDate L text q.DateExtractionRegex = .ret d0 none)) :
    ApplyRules L text rules = .ret (d ++ " - Google Cloud.pdf") none := by
  induction rules generalizing i with
  | nil => simp at hi
  | cons q rest ih =>
    cases i with
    | zero =>
      simp at hi
      subst hi
      exact ApplyRules_date_ok L text q rest d hv ha hd
    | succ j =>
      have hi0 : rest[j]? = some r := by simpa using hi
      have ihr := ih j (fun x hx => hcompile x (List.mem_cons_of_mem _ hx)) hi0
        (fun k hk x hx => hmin (k + 1) (Nat.succ_lt_succ hk) x (by simpa using hx))
      have hq := hmin 0 (Nat.succ_pos j) q (by simp)
      have hc := hcompile q (List.mem_cons_self _ _)
      cases hqv : L.MatchString q.VendorMatchRegex text with
      | false => rw [ApplyRules_vendor_no_match L text q rest hqv, ihr]
      | true =>
        cases hqa : L.MatchString q.AdditionalMatchRegex text with
        | false => rw [ApplyRules_additional_no_match L text q rest hqa, ihr]
        | true =>
          cases hqd : ExtractDate L text q.DateExtractionRegex with
          | panic => exact absurd hqd (ExtractDate_ne_panic L text _ hc)
          | ret s err =>
            cases err with
            | none => exact absurd ⟨hqv, hqa, s, hqd⟩ hq
            | some e => rw [ApplyRules_date_error L text q rest s e hqd, ihr]

/-- Scenario C with a third rule appended: the day-first rule fails on the
date, the second rule wins. -/
theorem ApplyRules_first_match_wins_witness :
    ApplyRules miniRegexp textC [ruleDayFirst, ruleA, ruleDayFirst] =
      .ret ("20230306" ++ " - Google Cloud.pdf") none :=
  ApplyRules_first_match_wins miniRegexp textC [ruleDayFirst, ruleA, ruleDayFirst] 1 ruleA
    "20230306" (by decide) (by decide) (by decide) (by decide) (by decide)
    (by
      intro j hj q hq
      have hj0 : j = 0 := by omega
      subst hj0
      have hq0 : q = ruleDayFirst := by simpa using hq.symm
      subst hq0
      have he : ExtractDate miniRegexp textC ruleDayFirst.DateExtractionRegex =
          .ret "" (some .parseError) := by decide
      rw [he]
      simp)

/-- C3 (graceful degradation): when the vendor and additional patterns of `r`
match and its valid date pattern finds no match, or the captured text does not
parse as "Month D, YYYY", the rule is skipped: the result is that of the
remaining rules. -/
theorem ApplyRules_graceful_degradation (L : RegexpLib) (text : String) (r : Rule)
    (rest : List Rule) (re : L.Regexp)
    (hv : L.MatchString r.VendorMatchRegex text = true)
    (ha : L.MatchString r.AdditionalMatchRegex text = true)
    (hre : L.Compile r.DateExtractionRegex = some re)
    (hfail : L.FindStringSubmatch re text = [] ∨
      ∃ g, (L.FindStringSubmatch re text)[1]? = some g ∧ timeParse g = none) :
    ApplyRules L text (r :: rest) = ApplyRules L text rest := by
  have _ := hv
  have _ := ha
  have hd : ∃ e, ExtractDate L text r.DateExtractionRegex = .ret "" (some e) := by
    unfold ExtractDate
    rw [hre]
    dsimp only
    rcases hfail with h | ⟨g, hg, hp⟩
    · exact ⟨.dateNotFound, by simp [h]⟩
    · by_cases hlen : (L.FindStringSubmatch re text).length < 2
      · exact ⟨.dateNotFound, by simp [hlen]⟩
      · refine ⟨.parseError, ?_⟩
        simp [hlen, hg, hp]
  obtain ⟨e, he⟩ := hd
  exact ApplyRules_date_error L text r rest "" e he

/-- Scenario C: the capture "5 March 2023" does not parse, and the second
rule gives the result. -/
theorem ApplyRules_graceful_degradation_witness :
    timeParse "5 March 2023" = none ∧
    ApplyRules miniRegexp textC (ruleDayFirst :: [ruleA]) =
      .ret "20230306 - Google Cloud.pdf" none :=
  ⟨by decide,
   (ApplyRules_graceful_degradation miniRegexp textC ruleDayFirst [ruleA]
      ((miniCompile ruleDayFirst.DateExtractionRegex).get (by decide))
      (by decide) (by decide) (Option.some_get _).symm
      (Or.inr ⟨"5 March 2023", by decide, by decide⟩)).trans (by decide)⟩

/-- C5 (a malformed vendor or additional pattern is skipped): when the vendor
pattern of `r` is not valid syntax, or it matches and the additional pattern is
not valid syntax, the result is that of the remaining rules. -/
theorem ApplyRules_malformed_match_pattern_skipped (L : RegexpLib) (text : String) (r : Rule)
    (rest : List Rule)
    (h : L.Compile r.VendorMatchRegex = none ∨
      (L.MatchString r.VendorMatchRegex text = true ∧
        L.Compile r.AdditionalMatchRegex = none)) :
    ApplyRules L text (r :: rest) = ApplyRules L text rest := by
  rcases h with h | ⟨_, h⟩
  · exact ApplyRules_vendor_no_match L text r rest (MatchString_of_invalid L _ text h)
  · exact ApplyRules_additional_no_match L text r rest (MatchString_of_invalid L _ text h)

/-- Both malformed rules before the rule of Scenario A are skipped. -/
theorem ApplyRules_malformed_match_pattern_skipped_witness :
    ApplyRules miniRegexp textA [ruleBadVendor, ruleA] =
      .ret "20230305 - Google Cloud.pdf" none ∧
    ApplyRules miniRegexp textA [ruleBadAdditional, ruleA] =
      .ret "20230305 - Google Cloud.pdf" none :=
  ⟨(ApplyRules_malformed_match_pattern_skipped miniRegexp textA ruleBadVendor [ruleA]
      (Or.inl rfl)).trans (by decide),
   (ApplyRules_malformed_match_pattern_skipped miniRegexp textA ruleBadAdditional [ruleA]
      (Or.inr ⟨by decide, rfl⟩)).trans (by decide)⟩

/-- C8 (short circuit): when the vendor pattern of `r` matches and the
additional pattern does not, the date pattern of `r` is not used: the result is
that of the remaining rules, for every date pattern, valid or not. -/
theorem ApplyRules_short_circuit (L : RegexpLib) (text : String) (r : Rule) (rest : List Rule)
    (hv : L.MatchString r.VendorMatchRegex text = true)
    (ha : L.MatchString r.AdditionalMatchRegex text = false) :
    ApplyRules L text (r :: rest) = ApplyRules L text rest ∧
    ∀ dateRegex : String,
      ApplyRules L text ({ r with DateExtractionRegex := dateRegex } :: rest) =
        ApplyRules L text rest :=
  have _ := hv
  ⟨ApplyRules_additional_no_match L text r rest ha,
   fun _ => ApplyRules_additional_no_match L text _ rest ha⟩

/-- Scenario B: the text lacks "Invoice"; the rule is skipped also with a date
pattern that is not valid syntax, and no rule is left. -/
theorem ApplyRules_short_circuit_witness :
    miniRegexp.Compile ruleBadDate.DateExtractionRegex = none ∧
    ApplyRules miniRegexp textB [ruleBadDate] = .ret "" (some .noMatchingRule) ∧
    ApplyRules miniRegexp textB [ruleA] = .ret "" (some .noMatchingRule) :=
  ⟨rfl,
   (ApplyRules_short_circuit miniRegexp textB ruleBadDate [] (by decide) (by decide)).1.trans
     (by decide),
   ((ApplyRules_short_circuit miniRegexp textB ruleBadDate [] (by decide) (by decide)).2
     ruleA.DateExtractionRegex).trans (by decide)⟩

/-- C10 (concatenation): a filename obtained from the rules `a` is also the
result for `a ++ b`, whatever `b` holds; and when `a` ends in the no-match
error, the result for `a ++ b` is that of `b`. -/
theorem ApplyRules_append (L : RegexpLib) (text : String) (a b : List Rule) :
    (∀ f, ApplyRules L text a = .ret f none → ApplyRules L text (a ++ b) = .ret f none) ∧
    (∀ s, ApplyRules L text a = .ret s (some .noMatchingRule) →
      ApplyRules L text (a ++ b) = ApplyRules L text b) := by
  induction a with
  | nil =>
    refine ⟨fun f h => ?_, fun _ _ => rfl⟩
    simp [ApplyRules] at h
  | cons q rest ih =>
    rcases ApplyRules_head_cases L text q with hp | ⟨f0, hf⟩ | hs
    · refine ⟨fun f h => ?_, fun s h => ?_⟩ <;> rw [hp rest] at h <;> simp at h
    · refine ⟨fun f h => ?_, fun s h => ?_⟩
      · rw [List.cons_append, hf (rest ++ b), ← hf rest, h]
      · rw [hf rest] at h
        simp at h
    · refine ⟨fun f h => ?_, fun s h => ?_⟩
      · rw [List.cons_append, hs (rest ++ b)]
        exact ih.1 f (by rw [← hs rest]; exact h)
      · rw [List.cons_append, hs (rest ++ b)]
        exact ih.2 s (by rw [← hs rest]; exact h)

/-- Appending a rule with an invalid date pattern keeps the filename of
Scenario A; after a failing rule list the appended rules decide. -/
theorem ApplyRules_append_witness :
    ApplyRules miniRegexp textA ([ruleA] ++ [ruleBadDate]) =
      .ret "20230305 - Google Cloud.pdf" none ∧
    ApplyRules miniRegexp textC ([ruleDayFirst] ++ [ruleA]) =
      ApplyRules miniRegexp textC [ruleA] :=
  ⟨(ApplyRules_append miniRegexp textA [ruleA] [ruleBadDate]).1 _ (by decide),
   (ApplyRules_append miniRegexp textC [ruleDayFirst] [ruleA]).2 "" (by decide)⟩

/-- C4, the code at a rule with an invalid date pattern: both match patterns
of `ruleBadDate` match the text of Scenario A and its date pattern does not
compile; `ApplyRules` panics, although the remaining rule yields a filename. -/
theorem ApplyRules_invalid_date_regex_aborts :
    miniRegexp.MatchString ruleBadDate.VendorMatchRegex textA = true ∧
    miniRegexp.MatchString ruleBadDate.AdditionalMatchRegex textA = true ∧
    miniRegexp.Compile ruleBadDate.DateExtractionRegex = none ∧
    ApplyRules miniRegexp textA (ruleBadDate :: [ruleA]) = .panic ∧
    ApplyRules miniRegexp textA [ruleA] = .ret "20230305 - Google Cloud.pdf" none :=
  ⟨by decide, by decide, rfl, by decide, by decide⟩

/-- C2, the code at a list without a succeeding rule whose last rule has an
invalid date pattern: no rule of the list matches both patterns with a
successful extraction, and `ApplyRules` panics instead of returning the
no-match error. -/
theorem ApplyRules_total_failure_aborts :
    (∀ q ∈ [ruleDayFirst, ruleBadDate],
      ¬ (miniRegexp.MatchString q.VendorMatchRegex textC = true ∧
         miniRegexp.MatchString q.AdditionalMatchRegex textC = true ∧
         ∃ d, ExtractDate miniRegexp textC q.DateExtractionRegex = .ret d none)) ∧
    ApplyRules miniRegexp textC [ruleDayFirst, ruleBadDate] = .panic ∧
    ApplyRules miniRegexp textC [ruleDayFirst, ruleBadDate] ≠ .ret "" (some .noMatchingRule) := by
  refine ⟨?_, by decide, by decide⟩
  intro q hq
  have h1 : ExtractDate miniRegexp textC ruleDayFirst.DateExtractionRegex =
      .ret "" (some .parseError) := by decide
  have h2 : ExtractDate miniRegexp textC ruleBadDate.DateExtractionRegex = .panic := by decide
  simp only [List.mem_cons, List.mem_singleton, List.not_mem_nil, or_false] at hq
  rcases hq with rfl | rfl
  · rw [h1]; simp
  · rw [h2]; simp

/-! ## Facts about the date parser -/

theorem utod_isDigit (k : Nat) (h : k < 10) : (utod k).isDigit = true := by
  interval_cases k <;> rfl

theorem digitVal_le (c : Char) (h9 : c ≤ '9') : digitVal c ≤ 9 := by
  have h : c.val.toNat ≤ 57 := h9
  unfold digitVal Char.toNat
  have : '0'.val.toNat = 48 := rfl
  omega

theorem lookupFrom_lt (tab : List String) (i : Nat) (val : List Char) (j : Nat)
    (rest : List Char) (h : lookupFrom tab i val = some (j, rest)) : j < i + tab.length := by
  induction tab generalizing i with
  | nil => simp [lookupFrom] at h
  | cons v tab ih =>
    unfold lookupFrom at h
    split at h
    · simp at h
      simp
      omega
    · have := ih (i + 1) h
      simp
      omega

theorem leadingInt_lt (x : Nat) (s : List Char) :
    (leadingInt x s).1 < (x + 1) * 10 ^ s.length := by
  induction s generalizing x with
  | nil => simp [leadingInt]
  | cons c s ih =>
    unfold leadingInt
    split
    · rename_i hc
      simp only [Bool.and_eq_true, decide_eq_true_eq] at hc
      have hd := digitVal_le c hc.2
      have h1 := ih (x * 10 + digitVal c)
      have h2 : (x * 10 + digitVal c + 1) * 10 ^ s.length ≤ (x + 1) * 10 ^ (c :: s).length := by
        rw [List.length_cons, pow_succ]
        have : x * 10 + digitVal c + 1 ≤ (x + 1) * 10 := by omega
        calc (x * 10 + digitVal c + 1) * 10 ^ s.length
            ≤ ((x + 1) * 10) * 10 ^ s.length := Nat.mul_le_mul_right _ this
          _ = (x + 1) * (10 ^ s.length * 10) := by ring
      exact lt_of_lt_of_le h1 h2
    · simp only [List.length_cons]
      have : 0 < 10 ^ (s.length + 1) := pow_pos (by decide) _
      nlinarith

theorem atoi_lt (s : List Char) (y : Int) (h : atoi s = some y) :
    y.toNat < 10 ^ s.length := by
  unfold atoi at h
  dsimp only at h
  split at h
  · rename_i q hq
    simp only [Option.some.injEq] at h
    have hb := leadingInt_lt 0 (if s.head? = some '-' ∨ s.head? = some '+' then s.drop 1 else s)
    rw [hq] at hb
    simp only [zero_add, one_mul] at hb
    have hlen : (if s.head? = some '-' ∨ s.head? = some '+' then s.drop 1 else s).length
        ≤ s.length := by
      split <;> simp
    have hpow := Nat.pow_le_pow_right (show 0 < 10 by decide) hlen
    split at h <;> subst h <;> simp
    omega
  · simp at h

theorem daysIn_le (m y : Nat) : daysIn m y ≤ 31 := by
  unfold daysIn
  split
  · split <;> omega
  · omega

/-- A parsed date has a year below 10000, a month from 1 to 12 and a day from 1 to 31. -/
theorem timeParse_bounds (g : String) (t : Date) (h : timeParse g = some t) :
    t.year < 10000 ∧ 1 ≤ t.month ∧ t.month ≤ 12 ∧ 1 ≤ t.day ∧ t.day ≤ 31 := by
  unfold timeParse at h
  split at h
  · simp at h
  · rename_i i v1 hl
    split at h
    · simp at h
    · split at h
      · simp at h
      · rename_i day v3 hg
        split at h
        · simp at h
        · rename_i v4 hs
          split at h
          · simp at h
          · split at h
            · simp at h
            · rename_i year hy
              split at h
              · simp at h
              · split at h
                · simp at h
                · rename_i hday
                  simp only [Option.some.injEq] at h
                  subst h
                  simp only [Bool.or_eq_true, decide_eq_true_eq, not_or, not_lt] at hday
                  have hi := lookupFrom_lt longMonthNames 0 _ i v1 hl
                  have hyl := atoi_lt _ _ hy
                  have hlen : (List.take 4 v4).length ≤ 4 := by simp
                  have hpow := Nat.pow_le_pow_right (show 0 < 10 by decide) hlen
                  have hdi := daysIn_le (i + 1) year.toNat
                  simp [longMonthNames] at hi
                  dsimp only
                  refine ⟨by omega, by omega, by omega, hday.1, by omega⟩

/-- A formatted date is eight decimal digits. -/
theorem timeFormat_digits (t : Date) (hy : t.year < 10000) (hm : t.month ≤ 12)
    (hd : t.day ≤ 31) :
    (timeFormat t).length = 8 ∧ ∀ c ∈ (timeFormat t).data, c.isDigit = true := by
  have hm2 : t.month < 100 := by omega
  have hd2 : t.day < 100 := by omega
  have e : (timeFormat t).data =
      [utod (t.year / 1000), utod (t.year / 100 % 10), utod (t.year / 10 % 10),
       utod (t.year % 10), utod (t.month / 10), utod (t.month % 10),
       utod (t.day / 10), utod (t.day % 10)] := by
    simp [timeFormat, appendInt, hy, hm2, hd2]
  refine ⟨?_, ?_⟩
  · rw [String.length, e]
    rfl
  · intro c hc
    rw [e] at hc
    simp only [List.mem_cons, List.mem_singleton, List.not_mem_nil, or_false] at hc
    rcases hc with rfl | rfl | rfl | rfl | rfl | rfl | rfl | rfl <;>
      exact utod_isDigit _ (by omega)

/-- A successful extraction returns the formatted date of a capture that parsed. -/
theorem ExtractDate_ok_inv (L : RegexpLib) (text regex d : String)
    (h : ExtractDate L text regex = .ret d none) :
    ∃ g t, timeParse g = some t ∧ d = timeFormat t := by
  unfold ExtractDate at h
  split at h
  · simp at h
  · dsimp only at h
    split at h
    · simp at h
    · split at h
      · simp at h
      · rename_i t ht
        simp only [Outcome.ret.injEq, and_true] at h
        exact ⟨_, t, ht, h.symm⟩

/-- A filename returned by `ApplyRules` comes from a successful extraction. -/
theorem ApplyRules_ok_inv (L : RegexpLib) (text : String) (rules : List Rule) (f : String)
    (h : ApplyRules L text rules = .ret f none) :
    ∃ r ∈ rules, ∃ d, ExtractDate L text r.DateExtractionRegex = .ret d none ∧
      f = d ++ " - Google Cloud.pdf" := by
  induction rules with
  | nil => simp [ApplyRules] at h
  | cons q rest ih =>
    cases hv : L.MatchString q.VendorMatchRegex text with
    | false =>
      rw [ApplyRules_vendor_no_match L text q rest hv] at h
      obtain ⟨r, hr, x⟩ := ih h
      exact ⟨r, List.mem_cons_of_mem _ hr, x⟩
    | true =>
      cases ha : L.MatchString q.AdditionalMatchRegex text with
      | false =>
        rw [ApplyRules_additional_no_match L text q rest ha] at h
        obtain ⟨r, hr, x⟩ := ih h
        exact ⟨r, List.mem_cons_of_mem _ hr, x⟩
      | true =>
        cases hd : ExtractDate L text q.DateExtractionRegex with
        | panic => simp [ApplyRules, hv, ha, hd] at h
        | ret s err =>
          cases err with
          | none =>
            rw [ApplyRules_date_ok L text q rest s hv ha hd] at h
            simp only [Outcome.ret.injEq, and_true] at h
            exact ⟨q, List.mem_cons_self _ _, s, hd, h.symm⟩
          | some e =>
            rw [ApplyRules_date_error L text q rest s e hd] at h
            obtain ⟨r, hr, x⟩ := ih h
            exact ⟨r, List.mem_cons_of_mem _ hr, x⟩

/-! ## The claims about the output and about `ExtractDate` -/

/-- C7 (output format): whenever `ApplyRules` returns a nil error, the
filename is eight ASCII decimal digits followed by " - Google Cloud.pdf", the
same label for every rule. -/
theorem ApplyRules_output_format (L : RegexpLib) (text : String) (rules : List Rule)
    (f : String) (h : ApplyRules L text rules = .ret f none) :
    ∃ d : String, d.length = 8 ∧ (∀ c ∈ d.data, c.isDigit = true) ∧
      f = d ++ " - Google Cloud.pdf" := by
  obtain ⟨_, _, d, hd, hf⟩ := ApplyRules_ok_inv L text rules f h
  obtain ⟨g, t, ht, hdt⟩ := ExtractDate_ok_inv L text _ d hd
  obtain ⟨hy, _, hm, _, hday⟩ := timeParse_bounds g t ht
  obtain ⟨h8, hdig⟩ := timeFormat_digits t hy hm hday
  exact ⟨d, by rw [hdt]; exact h8, by rw [hdt]; exact hdig, hf⟩

/-- Scenario A: the rule set of one rule gives "20230305 - Google Cloud.pdf". -/
theorem ApplyRules_output_format_witness :
    ApplyRules miniRegexp "Google Cloud Invoice\nDate: March 5, 2023"
      [⟨"Google Cloud", "Invoice", "Date: ([A-Za-z]+ \\d{1,2}, \\d{4})"⟩] =
      .ret "20230305 - Google Cloud.pdf" none ∧
    ∃ d : String, d.length = 8 ∧ (∀ c ∈ d.data, c.isDigit = true) ∧
      "20230305 - Google Cloud.pdf" = d ++ " - Google Cloud.pdf" :=
  ⟨by decide,
   ApplyRules_output_format miniRegexp "Google Cloud Invoice\nDate: March 5, 2023"
     [⟨"Google Cloud", "Invoice", "Date: ([A-Za-z]+ \\d{1,2}, \\d{4})"⟩]
     "20230305 - Google Cloud.pdf" (by decide)⟩

/-- C9 (failure conditions of `ExtractDate`): for a valid pattern,
`ExtractDate` returns an error, with the empty string, exactly when the
pattern has no match in the text, or the first match has no capture group 1,
or capture group 1 of the first match does not parse under the layout
"January 2, 2006".  Only the submatches of the first match are read. -/
theorem ExtractDate_error_iff (L : RegexpLib) (text regex : String) (re : L.Regexp)
    (hre : L.Compile regex = some re) :
    ((∃ e, ExtractDate L text regex = .ret "" (some e)) ↔
      (L.FindStringSubmatch re text = [] ∨
       (L.FindStringSubmatch re text).length = 1 ∨
       ∃ g, (L.FindStringSubmatch re text)[1]? = some g ∧ timeParse g = none)) ∧
    (∀ s e, ExtractDate L text regex = .ret s (some e) → s = "") := by
  refine ⟨?_, fun s e h => ExtractDate_error_value L text regex s e h⟩
  unfold ExtractDate
  rw [hre]
  dsimp only
  constructor
  · rintro ⟨e, he⟩
    by_cases hlen : (L.FindStringSubmatch re text).length < 2
    · have : (L.FindStringSubmatch re text).length = 0 ∨
          (L.FindStringSubmatch re text).length = 1 := by omega
      rcases this with h0 | h1
      · exact Or.inl (List.length_eq_zero.mp h0)
      · exact Or.inr (Or.inl h1)
    · obtain ⟨g, hg⟩ : ∃ g, (L.FindStringSubmatch re text)[1]? = some g :=
        ⟨_, List.getElem?_eq_getElem (by omega)⟩
      refine Or.inr (Or.inr ⟨g, hg, ?_⟩)
      simp only [hlen, if_false, List.getD_eq_getElem?_getD, hg, Option.getD_some] at he
      cases hp : timeParse g with
      | none => rfl
      | some t => simp [hp] at he
  · rintro (h | h | ⟨g, hg, hp⟩)
    · exact ⟨.dateNotFound, by simp [h]⟩
    · exact ⟨.dateNotFound, by simp [h]⟩
    · by_cases hlen : (L.FindStringSubmatch re text).length < 2
      · exact ⟨.dateNotFound, by simp [hlen]⟩
      · exact ⟨.parseError, by simp [hlen, hg, hp]⟩

/-- In the text of Scenario C the first match of the pattern captures
"5 March 2023": the extraction fails although the later "March 6, 2023", alone
in a text, is extracted. -/
theorem ExtractDate_error_iff_witness :
    ExtractDate miniRegexp textC "Date: ([A-Za-z0-9]+ [A-Za-z0-9]+,? \\d{4})" =
      .ret "" (some .parseError) ∧
    ExtractDate miniRegexp "Date: March 6, 2023" "Date: ([A-Za-z0-9]+ [A-Za-z0-9]+,? \\d{4})" =
      .ret "20230306" none ∧
    ((∃ e, ExtractDate miniRegexp textC "Date: ([A-Za-z0-9]+ [A-Za-z0-9]+,? \\d{4})" =
        .ret "" (some e)) ↔
      (miniRegexp.FindStringSubmatch
          ((miniCompile "Date: ([A-Za-z0-9]+ [A-Za-z0-9]+,? \\d{4})").get (by decide)) textC = [] ∨
       (miniRegexp.FindStringSubmatch
          ((miniCompile "Date: ([A-Za-z0-9]+ [A-Za-z0-9]+,? \\d{4})").get (by decide))
          textC).length = 1 ∨
       ∃ g, (miniRegexp.FindStringSubmatch
          ((miniCompile "Date: ([A-Za-z0-9]+ [A-Za-z0-9]+,? \\d{4})").get (by decide))
          textC)[1]? = some g ∧ timeParse g = none)) :=
  ⟨by decide, by decide,
   (ExtractDate_error_iff miniRegexp textC "Date: ([A-Za-z0-9]+ [A-Za-z0-9]+,? \\d{4})"
     ((miniCompile "Date: ([A-Za-z0-9]+ [A-Za-z0-9]+,? \\d{4})").get (by decide))
     (Option.some_get _).symm).1⟩

/-! ## Parsing a well-formed date -/

theorem utod_facts (k : Nat) (h : k < 10) :
    utod k ≠ ' ' ∧ utod k ≠ '-' ∧ utod k ≠ '+' ∧ utod k ≠ ',' ∧
    '0' ≤ utod k ∧ utod k ≤ '9' ∧ digitVal (utod k) = k := by
  interval_cases k <;> decide

theorem lookup_month (i : Nat) (hi : i < 12) (rest : List Char) :
    lookup longMonthNames ((longMonthNames.getD i "").data ++ rest) = some (i, rest) := by
  interval_cases i <;>
    simp [lookup, lookupFrom, longMonthNames, matchFold, orLower, String.length]

theorem cutspace_cons_ne (c : Char) (s : List Char) (hc : c ≠ ' ') :
    cutspace (c :: s) = c :: s := by
  simp [cutspace, hc]

theorem skip_space (c : Char) (s : List Char) (hc : c ≠ ' ') :
    skip (' ' :: c :: s) " ".data = some (c :: s) := by
  simp [skip, skipLoop, cutspace, hc]

theorem skip_comma_space (c : Char) (s : List Char) (hc : c ≠ ' ') :
    skip (',' :: ' ' :: c :: s) ", ".data = some (c :: s) := by
  simp [skip, skipLoop, cutspace, hc]

theorem getnum_one (k : Nat) (hk : k < 10) (s : List Char) :
    getnum (utod k :: ',' :: s) false = some (k, ',' :: s) := by
  obtain ⟨_, _, _, _, h0, h9, hv⟩ := utod_facts k hk
  have hc : ¬ ('0' ≤ ',') := by decide
  simp [getnum, isDigit, h0, h9, hv, hc]

theorem getnum_two (k1 k2 : Nat) (h1 : k1 < 10) (h2 : k2 < 10) (s : List Char) :
    getnum (utod k1 :: utod k2 :: s) false = some (k1 * 10 + k2, s) := by
  obtain ⟨_, _, _, _, h0, h9, hv⟩ := utod_facts k1 h1
  obtain ⟨_, _, _, _, h0b, h9b, hvb⟩ := utod_facts k2 h2
  simp [getnum, isDigit, h0, h9, hv, h0b, h9b, hvb]

theorem atoi_four (a b c e : Nat) (ha : a < 10) (hb : b < 10) (hc : c < 10) (he : e < 10) :
    atoi [utod a, utod b, utod c, utod e] =
      some (((a * 10 + b) * 10 + c) * 10 + e : Nat) := by
  obtain ⟨_, am, ap, _, a0, a9, av⟩ := utod_facts a ha
  obtain ⟨_, _, _, _, b0, b9, bv⟩ := utod_facts b hb
  obtain ⟨_, _, _, _, c0, c9, cv⟩ := utod_facts c hc
  obtain ⟨_, _, _, _, e0, e9, ev⟩ := utod_facts e he
  simp [atoi, leadingInt, am, ap, a0, a9, av, b0, b9, bv, c0, c9, cv, e0, e9, ev]

/-- The parser on "Month D, YYYY" with the day in one or two digits. -/
theorem timeParse_wellformed (i d y : Nat) (ds : String) (hi : i < 12) (hy : y < 10000)
    (hds : (d < 10 ∧ ds = String.mk [utod d]) ∨
      (d < 100 ∧ ds = String.mk [utod (d / 10), utod (d % 10)]))
    (hd1 : 1 ≤ d) (hd2 : d ≤ daysIn (i + 1) y) :
    timeParse (longMonthNames.getD i "" ++ " " ++ ds ++ ", " ++
      String.mk [utod (y / 1000), utod (y / 100 % 10), utod (y / 10 % 10), utod (y % 10)]) =
      some ⟨y, i + 1, d⟩ := by
  have hya : y / 1000 < 10 := by omega
  have hyb : y / 100 % 10 < 10 := by omega
  have hyc : y / 10 % 10 < 10 := by omega
  have hye : y % 10 < 10 := by omega
  have hysum : ((y / 1000 * 10 + y / 100 % 10) * 10 + y / 10 % 10) * 10 + y % 10 = y := by
    omega
  have hne := (utod_facts (y / 1000) hya).1
  have h0 := (utod_facts (y / 1000) hya).2.2.2.2.1
  have h9 := (utod_facts (y / 1000) hya).2.2.2.2.2.1
  have hdl : ¬ (d < 1) := by omega
  have hdm : ¬ (daysIn (i + 1) y < d) := by omega
  unfold timeParse
  rcases hds with ⟨hlt, rfl⟩ | ⟨hlt, rfl⟩
  · have hdne := (utod_facts d hlt).1
    simp only [String.data_append, List.append_assoc, lookup_month i hi]
    simp [skip_space _ _ hdne, getnum_one d hlt, skip_comma_space _ _ hne, isDigit, h0, h9,
      atoi_four _ _ _ _ hya hyb hyc hye, hysum, hdl, hdm]
  · have hq : d / 10 < 10 := by omega
    have hr : d % 10 < 10 := by omega
    have hdne := (utod_facts (d / 10) hq).1
    have hdsum : d / 10 * 10 + d % 10 = d := by omega
    simp only [String.data_append, List.append_assoc, lookup_month i hi]
    simp [skip_space _ _ hdne, getnum_two _ _ hq hr, skip_comma_space _ _ hne, isDigit, h0, h9,
      atoi_four _ _ _ _ hya hyb hyc hye, hysum, hdsum, hdl, hdm]

/-- C6 (date canonicalisation): for a valid pattern whose first match has
capture group 1 equal to a full English month name, a space, the day in one or
two digits, a comma and a space, and the year in four digits, the date
existing in the calendar, `ExtractDate` returns with a nil error the eight
characters made of the four digits of the year, the two digits of the month
number and the two digits of the day, both zero-padded. -/
theorem ExtractDate_canonical (L : RegexpLib) (text regex : String) (re : L.Regexp)
    (whole : String) (more : List String) (i d y : Nat) (ds : String)
    (hre : L.Compile regex = some re)
    (hi : i < 12) (hy : y < 10000)
    (hds : (d < 10 ∧ ds = String.mk [utod d]) ∨
      (d < 100 ∧ ds = String.mk [utod (d / 10), utod (d % 10)]))
    (hd1 : 1 ≤ d) (hd2 : d ≤ daysIn (i + 1) y)
    (hfind : L.FindStringSubmatch re text =
      whole :: (longMonthNames.getD i "" ++ " " ++ ds ++ ", " ++
        String.mk [utod (y / 1000), utod (y / 100 % 10), utod (y / 10 % 10), utod (y % 10)])
        :: more) :
    ExtractDate L text regex =
      .ret (String.mk [utod (y / 1000), utod (y / 100 % 10), utod (y / 10 % 10), utod (y % 10),
        utod ((i + 1) / 10), utod ((i + 1) % 10), utod (d / 10), utod (d % 10)]) none := by
  have hp := timeParse_wellformed i d y ds hi hy hds hd1 hd2
  have hdl : d ≤ 31 := le_trans hd2 (daysIn_le _ _)
  have hd100 : d < 100 := by omega
  have hm100 : i + 1 < 100 := by omega
  unfold ExtractDate
  rw [hre]
  dsimp only
  rw [hfind]
  simp only [List.length_cons, List.getD_cons_succ, List.getD_cons_zero, hp]
  simp [timeFormat, appendInt, hy, hd100, hm100]

/-- The text "Invoice date: January 2, 2006" with the pattern
`([A-Za-z]+ \d{1,2}, \d{4})` yields "20060102". -/
theorem ExtractDate_canonical_witness :
    ExtractDate miniRegexp "Invoice date: January 2, 2006" "([A-Za-z]+ \\d{1,2}, \\d{4})" =
      .ret "20060102" none :=
  ExtractDate_canonical miniRegexp "Invoice date: January 2, 2006"
    "([A-Za-z]+ \\d{1,2}, \\d{4})"
    ((miniCompile "([A-Za-z]+ \\d{1,2}, \\d{4})").get (by decide))
    "January 2, 2006" [] 0 2 2006 "2" (Option.some_get _).symm (by decide) (by decide)
    (Or.inl ⟨by decide, by decide⟩) (by decide) (by decide) (by decide)

end PdfOcr
